import Mathlib

/-!
Shallow embedding of the TimeTracker core: the duration codec of utils.py,
the aggregation model of models.py, and the session engine of
time_tracker.py over the record store of database.py.

Modelling conventions, stated once:
* Python ints are `Int` (or `Nat` where the source guarantees nonnegativity).
* Python strings are Lean `String`s; character-level work happens on
  `List Char` via `String.data`.
* Local timestamps, which the source passes around as strings in the
  format "%Y-%m-%d %H:%M:%S" (second precision), are modelled as `Int`
  seconds; calendar dates (format "%Y-%m-%d") are modelled as `Int` day
  numbers, with `date(ts)` extraction being floor division by 86400.
  Both string formats are in bijection with these integers, and datetime
  subtraction in the source is exactly integer subtraction of seconds.
* Numeric literals parsed by the duration parser are modelled as exact
  scaled naturals (`NumLit`, value sc / 10 ^ k); Python's `int()`
  truncation toward zero on them is `litTimesTrunc`.
-/

namespace TimeTrackerSpec

/-- Decimal digit character for a value in 0..9, as produced by Python
string formatting of integers. -/
def digitChar (n : Nat) : Char := Char.ofNat (48 + n)

/-- Fuelled worker for `decimalDigits`; with fuel at least n it emits the
decimal digits of n, most significant first, in front of the accumulator.
The fuel keeps the recursion structural so that the kernel can evaluate it. -/
def decimalDigitsAux : Nat → Nat → List Char → List Char
  | 0, n, acc => digitChar n :: acc
  | fuel + 1, n, acc =>
      if n < 10 then digitChar n :: acc
      else decimalDigitsAux fuel (n / 10) (digitChar (n % 10) :: acc)

/-- Decimal digit list of a natural number, most significant first: the
embedding of Python str(n) for a nonnegative int. -/
def decimalDigits (n : Nat) : List Char := decimalDigitsAux n n []

/-- Numeric value of a list of decimal digit characters (most significant
first), the inverse reading of `decimalDigits`. -/
def digitsVal (ds : List Char) : Nat :=
  ds.foldl (fun a c => 10 * a + (c.toNat - 48)) 0

/-- Python str(n) for a natural number. -/
def natStr (n : Nat) : String := String.mk (decimalDigits n)

/-- Zero padding to width 2, the embedding of Python format spec 02d
applied to the digit list of a nonnegative int. -/
def pad2 (ds : List Char) : List Char := List.replicate (2 - ds.length) '0' ++ ds

/-- utils.format_duration: compact human-readable rendering of a duration
in seconds ("2h 30m", "45m 10s", "30s"). Negative input renders as "0s";
otherwise the value is decomposed by integer division into hours, minutes
and seconds, and at most two units are rendered, most significant first. -/
def format_duration (seconds : Int) : String :=
  if seconds < 0 then "0s"
  else
    let s := seconds.toNat
    let hours := s / 3600
    let minutes := s % 3600 / 60
    let secs := s % 60
    if hours > 0 then
      if minutes > 0 then
        String.mk (decimalDigits hours ++ 'h' :: ' ' :: decimalDigits minutes ++ ['m'])
      else String.mk (decimalDigits hours ++ ['h'])
    else if minutes > 0 then
      if secs > 0 then
        String.mk (decimalDigits minutes ++ 'm' :: ' ' :: decimalDigits secs ++ ['s'])
      else String.mk (decimalDigits minutes ++ ['m'])
    else String.mk (decimalDigits secs ++ ['s'])

/-- utils.format_duration_detailed: zero-padded clock rendering
"HH:MM:SS" of a duration in seconds, hours unbounded and padded to at
least two digits. Negative input renders as "00:00:00". -/
def format_duration_detailed (seconds : Int) : String :=
  if seconds < 0 then "00:00:00"
  else
    let s := seconds.toNat
    let hours := s / 3600
    let minutes := s % 3600 / 60
    let secs := s % 60
    String.mk (pad2 (decimalDigits hours) ++
      ':' :: pad2 (decimalDigits minutes) ++ ':' :: pad2 (decimalDigits secs))

/-- Decision procedure for membership in the regular language
given by anchored digits, colon, two digits, colon, two digits:
the shape asserted of clock strings by the specification. -/
def matchesClockRe (s : String) : Bool :=
  let cs := s.data
  let ds := cs.takeWhile Char.isDigit
  (!ds.isEmpty) &&
    match cs.drop ds.length with
    | ':' :: a :: b :: ':' :: c :: d :: [] =>
        a.isDigit && b.isDigit && c.isDigit && d.isDigit
    | _ => false

/-- Reads the numeric components h, m, s back out of a clock string and
returns h * 3600 + m * 60 + s, the round-trip value of the rendering. -/
def clockValue (s : String) : Option Int :=
  let cs := s.data
  let ds := cs.takeWhile Char.isDigit
  if ds.isEmpty then none
  else
    match cs.drop ds.length with
    | ':' :: a :: b :: ':' :: c :: d :: [] =>
        if a.isDigit && b.isDigit && c.isDigit && d.isDigit then
          some ((digitsVal ds : Int) * 3600 + (digitsVal [a, b] : Int) * 60 +
            (digitsVal [c, d] : Int))
        else none
    | _ => none

/-- The whitespace class shared by Python str.strip and the regex class
backslash-s over ASCII input. -/
def pyIsSpace (c : Char) : Bool :=
  c = ' ' || c = '\t' || c = '\n' || c = '\r' || c = '\x0b' || c = '\x0c'

/-- Python str.strip on a character list: drop leading and trailing
whitespace. -/
def pyStripList (cs : List Char) : List Char :=
  ((cs.dropWhile pyIsSpace).reverse.dropWhile pyIsSpace).reverse

/-- Python str.strip. -/
def pyStrip (s : String) : String := String.mk (pyStripList s.data)

/-- Python str.lower restricted to ASCII, which covers every input the
duration grammar distinguishes. -/
def pyLowerChar (c : Char) : Char :=
  if 'A' ≤ c ∧ c ≤ 'Z' then Char.ofNat (c.toNat + 32) else c

/-- A number literal digits-dot-digits captured by the grammar, held
exactly as a scaled natural: its value is sc / 10 ^ k. Python reads these
through float(); on every concrete claim input the float computation is
exact, and the exact value is the specified one. -/
structure NumLit where
  sc : Nat
  k : Nat
deriving DecidableEq

/-- The literal with the given integer-part and fractional-part digits. -/
def numLit (intPart fracPart : List Char) : NumLit :=
  ⟨digitsVal intPart * 10 ^ fracPart.length + digitsVal fracPart, fracPart.length⟩

/-- Python int(v * m) for a nonnegative exact literal v: truncation
toward zero, which on nonnegative values is floor, i.e. Nat division. -/
def litTimesTrunc (v : NumLit) (m : Nat) : Int := ((v.sc * m / 10 ^ v.k : Nat) : Int)

/-- Attempt of the pattern digits, optional dot-digits, optional
whitespace, unit character u, anchored at the head of cs, with the
greedy-then-backtrack order of the regex engine: the fractional
continuation is preferred, and the bare-integer reading is retried only
when the fractional one cannot reach the unit character. Returns the
value of the captured number group. -/
def tryTokenAt (u : Char) (cs : List Char) : Option NumLit :=
  let ds := cs.takeWhile Char.isDigit
  if ds.isEmpty then none
  else
    let rest := cs.drop ds.length
    let withFrac : Option NumLit :=
      match rest with
      | '.' :: rest2 =>
          let fs := rest2.takeWhile Char.isDigit
          if fs.isEmpty then none
          else
            match (rest2.drop fs.length).dropWhile pyIsSpace with
            | c :: _ => if c = u then some (numLit ds fs) else none
            | [] => none
      | _ => none
    match withFrac with
    | some v => some v
    | none =>
        match rest.dropWhile pyIsSpace with
        | c :: _ => if c = u then some (numLit ds []) else none
        | [] => none

/-- re.search of the number-then-unit pattern: leftmost position wins. -/
def reSearchNum (u : Char) : List Char → Option NumLit
  | [] => none
  | c :: cs =>
      match tryTokenAt u (c :: cs) with
      | some v => some v
      | none => reSearchNum u cs

/-- Python float() on a trimmed string, over the literal forms the parser
can meet: optional sign, then digits with an optional fractional part, or
a bare fractional part. Exponent, infinity and nan spellings are not
modelled; no claim input uses them. -/
def pyFloatOfStr (cs : List Char) : Option (Int × NumLit) :=
  let signed : Int × List Char :=
    match cs with
    | '-' :: t => (-1, t)
    | '+' :: t => (1, t)
    | _ => (1, cs)
  let ds := signed.2.takeWhile Char.isDigit
  match signed.2.drop ds.length with
  | [] => if ds.isEmpty then none else some (signed.1, numLit ds [])
  | '.' :: rest2 =>
      let fs := rest2.takeWhile Char.isDigit
      if !(rest2.drop fs.length).isEmpty then none
      else if ds.isEmpty && fs.isEmpty then none
      else some (signed.1, numLit ds fs)
  | _ => none

/-- The string the token searches run over: input stripped, then
lowercased, exactly as utils.parse_duration prepares it. -/
def searchInput (s : String) : List Char := (pyStripList s.data).map pyLowerChar

/-- Hour-token contribution to the parsed total: int(hours * 3600) when
the hour search matched, 0 otherwise. -/
def hourContribution (s : String) : Int :=
  match reSearchNum 'h' (searchInput s) with
  | some v => litTimesTrunc v 3600
  | none => 0

/-- Minute-token contribution to the parsed total: int(minutes * 60) when
the minute search matched, 0 otherwise. -/
def minuteContribution (s : String) : Int :=
  match reSearchNum 'm' (searchInput s) with
  | some v => litTimesTrunc v 60
  | none => 0

/-- utils.parse_duration: empty or whitespace-only input fails; otherwise
the hour and minute token searches run over the stripped lowercased text,
and if either matched the sum of their contributions is returned; failing
that, the whole trimmed string is read as a bare number of hours; failing
that too, the parse fails. -/
def parse_duration (s : String) : Option Int :=
  if (pyStripList s.data).isEmpty then none
  else
    let hm := reSearchNum 'h' (searchInput s)
    let mm := reSearchNum 'm' (searchInput s)
    if hm.isSome || mm.isSome then
      some ((match hm with | some v => litTimesTrunc v 3600 | none => 0) +
            (match mm with | some v => litTimesTrunc v 60 | none => 0))
    else
      match pyFloatOfStr (searchInput s) with
      | some sv => some (sv.1 * litTimesTrunc sv.2 3600)
      | none => none

/-- models.WorkSession: a timed work session row. Optional fields mirror
the dataclass defaults and the nullable database columns. -/
structure WorkSession where
  id : Option Int := none
  start_time : Option Int := none
  end_time : Option Int := none
  duration : Option Int := none
  task_name : Option String := none
  notes : Option String := none
deriving DecidableEq

/-- models.ManualEntry: a manually entered time record. -/
structure ManualEntry where
  id : Option Int := none
  date : Option Int := none
  duration : Int := 0
  task_name : String := ""
  notes : Option String := none
deriving DecidableEq

/-- One bucket of the per-task breakdown: the dict with keys name,
duration and duration_formatted built by DailySummary. -/
structure TaskBucket where
  name : String
  duration : Int
  duration_formatted : String
deriving DecidableEq

/-- models.DailySummary: aggregated daily work data. -/
structure DailySummary where
  date : Int
  total_duration : Int := 0
  session_count : Nat := 0
  manual_entry_count : Nat := 0
  tasks : List TaskBucket := []
deriving DecidableEq

/-- Python truthiness of an optional int: None and 0 are falsy. -/
def truthyInt : Option Int → Bool
  | none => false
  | some n => n != 0

/-- Python truthiness of an optional string: None and "" are falsy. -/
def truthyStr : Option String → Bool
  | none => false
  | some s => s != ""

/-- DailySummary._add_task on the bucket list: the first bucket whose
name equals the task name exactly (case-sensitive, untrimmed) absorbs the
duration; otherwise a fresh bucket is appended. The formatted field is
maintained alongside, as in the source. -/
def addTaskToList (task_name : String) (duration : Int) :
    List TaskBucket → List TaskBucket
  | [] => [⟨task_name, duration, format_duration duration⟩]
  | t :: ts =>
      if t.name = task_name then
        ⟨t.name, t.duration + duration, format_duration (t.duration + duration)⟩ :: ts
      else t :: addTaskToList task_name duration ts

/-- DailySummary.add_session: a session with falsy duration (unset or
zero) is ignored; otherwise its duration joins the total, the session
count rises, and a truthy task label is accumulated into the breakdown. -/
def DailySummary.add_session (s : DailySummary) (w : WorkSession) : DailySummary :=
  if truthyInt w.duration then
    let d := w.duration.getD 0
    let s1 := { s with
      total_duration := s.total_duration + d,
      session_count := s.session_count + 1 }
    if truthyStr w.task_name then
      { s1 with tasks := addTaskToList (w.task_name.getD "") d s1.tasks }
    else s1
  else s

/-- DailySummary.add_manual_entry: the duration joins the total
unconditionally, the manual count rises, and a truthy (nonempty) task
label is accumulated into the breakdown. -/
def DailySummary.add_manual_entry (s : DailySummary) (e : ManualEntry) : DailySummary :=
  let s1 := { s with
    total_duration := s.total_duration + e.duration,
    manual_entry_count := s.manual_entry_count + 1 }
  if e.task_name != "" then
    { s1 with tasks := addTaskToList e.task_name e.duration s1.tasks }
  else s1

/-- The aggregation loop of TimeTrackerCore.get_daily_summary over
already-fetched rows: start from a zeroed summary for the date, feed each
session whose duration is truthy to add_session, then feed every manual
entry to add_manual_entry. -/
def summarize (date : Int) (sessions : List WorkSession)
    (entries : List ManualEntry) : DailySummary :=
  let s0 : DailySummary := { date := date }
  let s1 := sessions.foldl
    (fun acc sd => if truthyInt sd.duration then acc.add_session sd else acc) s0
  entries.foldl (fun acc e => acc.add_manual_entry e) s1

/-- Stable insertion of a into a list for a total preorder given by le
(le a b meaning a may come before b): a lands in front of the first
element it may precede. -/
def stableInsertBy {α : Type} (le : α → α → Bool) (a : α) : List α → List α
  | [] => [a]
  | b :: l => if le a b then a :: b :: l else b :: stableInsertBy le a l

/-- Stable sort for the preorder le: the semantics of Python sorted with
a key function, which keeps equal-key elements in encounter order. -/
def stableSortBy {α : Type} (le : α → α → Bool) : List α → List α
  | [] => []
  | a :: l => stableInsertBy le a (stableSortBy le l)

/-- The comparison used at render time by DailySummary.get_summary_text:
sorted(key duration, reverse True) lets a precede b when a's duration is
at least b's. -/
def byDurationDesc (a b : TaskBucket) : Bool := b.duration ≤ a.duration

/-- The breakdown order rendered by DailySummary.get_summary_text:
the bucket list sorted by descending duration at render time. -/
def renderedTasks (s : DailySummary) : List TaskBucket :=
  stableSortBy byDurationDesc s.tasks

/-- Sum of the durations of the per-task breakdown buckets. -/
def bucketsSum (l : List TaskBucket) : Int := (l.map TaskBucket.duration).sum

/-- The task names appearing in the breakdown, in order. -/
def bucketNames (l : List TaskBucket) : List String := l.map TaskBucket.name

/-- One item fed to a DailySummary: a work session or a manual entry. -/
inductive SummaryItem where
  | sess (w : WorkSession)
  | manual (e : ManualEntry)
deriving DecidableEq

/-- Feeding one item to a summary through the corresponding add method. -/
def applyItem (s : DailySummary) : SummaryItem → DailySummary
  | .sess w => s.add_session w
  | .manual e => s.add_manual_entry e

/-- Feeding a whole item sequence to a summary, left to right. -/
def applyItems (s : DailySummary) (items : List SummaryItem) : DailySummary :=
  items.foldl applyItem s

/-- The duration an item carries (0 for a session with unset duration). -/
def itemDuration : SummaryItem → Int
  | .sess w => w.duration.getD 0
  | .manual e => e.duration

/-- Whether the item is counted toward the totals: sessions need a truthy
duration, manual entries always count. -/
def itemCounted : SummaryItem → Bool
  | .sess w => truthyInt w.duration
  | .manual _ => true

/-- Whether the item carries a truthy (present and nonempty) task label,
and hence reaches the per-task breakdown when counted. -/
def itemLabelled : SummaryItem → Bool
  | .sess w => truthyStr w.task_name
  | .manual e => e.task_name != ""

/-- The part of an item's duration that reaches the total but no bucket:
its duration when it is counted yet unlabelled, else 0. -/
def itemUncredited (i : SummaryItem) : Int :=
  if itemCounted i && !(itemLabelled i) then itemDuration i else 0

/-- The day number a local timestamp falls on: the embedding of the SQL
date() extraction from a "%Y-%m-%d %H:%M:%S" string. -/
def dayOf (ts : Int) : Int := ts / 86400

/-- database.Database state: the two tables with their auto-increment id
counters (SQLite AUTOINCREMENT: ids are never reused). -/
structure Database where
  sessions : List WorkSession := []
  nextSessionId : Int := 1
  entries : List ManualEntry := []
  nextEntryId : Int := 1
deriving DecidableEq

/-- Database.create_work_session: insert an unended session row with
start_time = now and the given task name; returns the fresh id. -/
def Database.create_work_session (db : Database) (now : Int)
    (task_name : Option String) : Int × Database :=
  let sid := db.nextSessionId
  (sid, { db with
    sessions := db.sessions ++
      [{ id := some sid, start_time := some now, task_name := task_name }],
    nextSessionId := sid + 1 })

/-- Database.get_session: the first row with the given id, if any. -/
def Database.get_session (db : Database) (sid : Int) : Option WorkSession :=
  db.sessions.find? (fun w => w.id == some sid)

/-- Database.end_work_session: look the session up; a missing row reports
failure and changes nothing; otherwise end_time = now and
duration = end minus start (in whole seconds) are written onto every row
with that id and the call reports success. -/
def Database.end_work_session (db : Database) (now : Int) (sid : Int) :
    Bool × Database :=
  match db.get_session sid with
  | none => (false, db)
  | some row =>
      (true, { db with sessions := db.sessions.map (fun w =>
        if w.id == some sid then
          { w with
            end_time := some now,
            duration := row.start_time.map (fun st => now - st) }
        else w) })

/-- Database.add_manual_entry: insert a row dated to the given date or
today; returns the fresh id. -/
def Database.add_manual_entry (db : Database) (today : Int)
    (task_name : String) (duration : Int) (date : Option Int)
    (notes : Option String) : Int × Database :=
  let d := date.getD today
  let eid := db.nextEntryId
  (eid, { db with
    entries := db.entries ++ [{
      id := some eid, date := some d,
      duration := duration, task_name := task_name, notes := notes }],
    nextEntryId := eid + 1 })

/-- Comparison for ORDER BY start_time ascending. -/
def byStartAsc (a b : WorkSession) : Bool :=
  a.start_time.getD 0 ≤ b.start_time.getD 0

/-- Database.get_today_sessions: the session rows whose start timestamp
falls on today's date, ordered by start time. Today is always the current
day; the function takes no date argument. -/
def Database.get_today_sessions (db : Database) (today : Int) :
    List WorkSession :=
  stableSortBy byStartAsc
    (db.sessions.filter (fun w => w.start_time.map dayOf == some today))

/-- Database.get_today_manual_entries: the manual entries dated today, in
creation (insertion) order. Today is always the current day; the function
takes no date argument. -/
def Database.get_today_manual_entries (db : Database) (today : Int) :
    List ManualEntry :=
  db.entries.filter (fun e => e.date == some today)

/-- time_tracker.TimeTrackerCore state: the database plus the current
session id reference. -/
structure TimeTrackerCore where
  db : Database
  current_session_id : Option Int := none
deriving DecidableEq

/-- TimeTrackerCore.is_session_active. -/
def TimeTrackerCore.is_session_active (t : TimeTrackerCore) : Bool :=
  t.current_session_id.isSome

/-- TimeTrackerCore.start_session: refuse (returning none, changing
nothing) while a session is active; otherwise create a fresh unended
session, adopt its id as current and return it. now is the clock reading
used as the start timestamp. -/
def TimeTrackerCore.start_session (t : TimeTrackerCore) (now : Int)
    (task_name : Option String) : Option Int × TimeTrackerCore :=
  if t.is_session_active then (none, t)
  else
    let r := t.db.create_work_session now task_name
    (some r.1, { db := r.2, current_session_id := some r.1 })

/-- TimeTrackerCore.stop_session: refuse while inactive; otherwise end
the current session through the database, and clear the current id
exactly when that update succeeded. -/
def TimeTrackerCore.stop_session (t : TimeTrackerCore) (now : Int) :
    Bool × TimeTrackerCore :=
  if t.is_session_active then
    let r := t.db.end_work_session now (t.current_session_id.getD 0)
    (r.1, {
      db := r.2,
      current_session_id := if r.1 then none else t.current_session_id })
  else (false, t)

/-- TimeTrackerCore.add_manual_entry: parse the duration text; a failed
parse or a nonpositive result is rejected with the invalid-format
message; then a task name that strips to empty is rejected with the
empty-name message; otherwise the entry is persisted (task name stripped,
dated today) and a success message quoting the unstripped name is
returned with the new id. Every path returns a value: no exception
escapes. -/
def TimeTrackerCore.add_manual_entry (t : TimeTrackerCore) (today : Int)
    (task_name : String) (duration_str : String) (notes : Option String) :
    (Bool × String × Option Int) × TimeTrackerCore :=
  let dur := parse_duration duration_str
  if dur.isNone || dur.getD 0 ≤ 0 then
    ((false,
      "Invalid duration format. Use formats like '2h 30m', '90m', or '1.5h'.",
      none), t)
  else if pyStrip task_name = "" then
    ((false, "Task name cannot be empty.", none), t)
  else
    let duration := dur.getD 0
    let r := t.db.add_manual_entry today (pyStrip task_name) duration none notes
    ((true,
      "Added " ++ format_duration duration ++ " for '" ++ task_name ++ "'",
      some r.1), { t with db := r.2 })

/-- TimeTrackerCore.get_daily_summary: the date argument (defaulted to
today) becomes the summary's date, but the aggregated rows are always
fetched by the today-only queries, exactly as in the source. -/
def TimeTrackerCore.get_daily_summary (t : TimeTrackerCore) (today : Int)
    (date : Option Int) : DailySummary :=
  let d := date.getD today
  summarize d (t.db.get_today_sessions today)
    (t.db.get_today_manual_entries today)

theorem decimalDigitsAux_acc (fuel : Nat) :
    ∀ n acc, decimalDigitsAux fuel n acc = decimalDigitsAux fuel n [] ++ acc := by
  induction fuel with
  | zero => intro n acc; simp [decimalDigitsAux]
  | succ fuel ih =>
    intro n acc
    by_cases h : n < 10
    · simp [decimalDigitsAux, h]
    · simp only [decimalDigitsAux, if_neg h]
      rw [ih (n / 10) (digitChar (n % 10) :: acc), ih (n / 10) [digitChar (n % 10)]]
      simp

theorem decimalDigitsAux_fuel {fuel fuel' n : Nat} (h : n ≤ fuel) (h' : n ≤ fuel') :
    ∀ acc, decimalDigitsAux fuel n acc = decimalDigitsAux fuel' n acc := by
  induction fuel generalizing fuel' n with
  | zero =>
    intro acc
    have hn : n = 0 := by omega
    subst hn
    cases fuel' with
    | zero => rfl
    | succ fuel'' => simp [decimalDigitsAux]
  | succ fuel ih =>
    intro acc
    cases fuel' with
    | zero =>
      have hn : n = 0 := by omega
      subst hn
      simp [decimalDigitsAux]
    | succ fuel'' =>
      by_cases h10 : n < 10
      · simp [decimalDigitsAux, h10]
      · simp only [decimalDigitsAux, if_neg h10]
        have hd : n / 10 < n := Nat.div_lt_self (by omega) (by omega)
        exact ih (by omega) (by omega) _

theorem decimalDigits_of_lt {n : Nat} (h : n < 10) : decimalDigits n = [digitChar n] := by
  unfold decimalDigits
  cases n with
  | zero => rfl
  | succ k => simp [decimalDigitsAux, h]

theorem decimalDigits_of_ge {n : Nat} (h : 10 ≤ n) :
    decimalDigits n = decimalDigits (n / 10) ++ [digitChar (n % 10)] := by
  have hd : n / 10 < n := Nat.div_lt_self (by omega) (by omega)
  unfold decimalDigits
  cases n with
  | zero => omega
  | succ k =>
    simp only [decimalDigitsAux, if_neg (by omega : ¬ k + 1 < 10)]
    rw [decimalDigitsAux_acc]
    rw [decimalDigitsAux_fuel (by omega : (k + 1) / 10 ≤ k)
      (le_refl ((k + 1) / 10)) []]

theorem digitChar_toNat {m : Nat} (h : m < 10) : (digitChar m).toNat = 48 + m := by
  interval_cases m <;> decide

theorem digitChar_isDigit {m : Nat} (h : m < 10) : (digitChar m).isDigit = true := by
  interval_cases m <;> decide

theorem digitsVal_append_single (ds : List Char) (c : Char) :
    digitsVal (ds ++ [c]) = 10 * digitsVal ds + (c.toNat - 48) := by
  simp [digitsVal, List.foldl_append]

theorem digitsVal_decimalDigits (n : Nat) : digitsVal (decimalDigits n) = n := by
  induction n using Nat.strong_induction_on with
  | _ n ih =>
    by_cases h : n < 10
    · rw [decimalDigits_of_lt h]
      simp [digitsVal, digitChar_toNat h]
    · rw [decimalDigits_of_ge (by omega), digitsVal_append_single,
        ih (n / 10) (Nat.div_lt_self (by omega) (by omega)),
        digitChar_toNat (Nat.mod_lt n (by omega))]
      omega

theorem decimalDigits_all_digit (n : Nat) :
    ∀ c ∈ decimalDigits n, c.isDigit = true := by
  induction n using Nat.strong_induction_on with
  | _ n ih =>
    by_cases h : n < 10
    · rw [decimalDigits_of_lt h]
      intro c hc
      simp at hc
      subst hc
      exact digitChar_isDigit h
    · rw [decimalDigits_of_ge (by omega)]
      intro c hc
      rcases List.mem_append.mp hc with h1 | h2
      · exact ih (n / 10) (Nat.div_lt_self (by omega) (by omega)) c h1
      · simp at h2
        subst h2
        exact digitChar_isDigit (Nat.mod_lt n (by omega))

theorem decimalDigits_ne_nil (n : Nat) : decimalDigits n ≠ [] := by
  by_cases h : n < 10
  · rw [decimalDigits_of_lt h]
    simp
  · rw [decimalDigits_of_ge (by omega)]
    simp

theorem decimalDigits_length_le_two {n : Nat} (h : n < 100) :
    (decimalDigits n).length ≤ 2 := by
  by_cases h10 : n < 10
  · rw [decimalDigits_of_lt h10]
    simp
  · rw [decimalDigits_of_ge (by omega), decimalDigits_of_lt (by omega : n / 10 < 10)]
    simp

theorem digitsVal_replicate_zero_append (k : Nat) (ds : List Char) :
    digitsVal (List.replicate k '0' ++ ds) = digitsVal ds := by
  induction k with
  | zero => simp
  | succ k ihk =>
    have : List.replicate (k + 1) '0' ++ ds = '0' :: (List.replicate k '0' ++ ds) := by
      simp [List.replicate_succ]
    rw [this]
    simp only [digitsVal, List.foldl_cons]
    have h0 : 10 * 0 + ('0'.toNat - 48) = 0 := by decide
    rw [h0]
    exact ihk

theorem digitsVal_pad2 (ds : List Char) : digitsVal (pad2 ds) = digitsVal ds :=
  digitsVal_replicate_zero_append _ ds

theorem pad2_all_digit {ds : List Char} (h : ∀ c ∈ ds, c.isDigit = true) :
    ∀ c ∈ pad2 ds, c.isDigit = true := by
  intro c hc
  rcases List.mem_append.mp hc with h1 | h2
  · have := List.eq_of_mem_replicate h1
    subst this
    decide
  · exact h c h2

theorem pad2_length {ds : List Char} (h : ds.length ≤ 2) : (pad2 ds).length = 2 := by
  simp [pad2]
  omega

theorem pad2_ne_nil (ds : List Char) : pad2 ds ≠ [] := by
  cases ds with
  | nil => decide
  | cons a l => simp [pad2]

theorem takeWhile_append_of_not {p : Char → Bool} {ds : List Char} (x : Char)
    (rest : List Char) (h : ∀ c ∈ ds, p c = true) (hx : p x = false) :
    (ds ++ x :: rest).takeWhile p = ds := by
  induction ds with
  | nil => simp [List.takeWhile_cons, hx]
  | cons a l ihl =>
    have ha : p a = true := h a (by simp)
    simp only [List.cons_append, List.takeWhile_cons, ha]
    rw [ihl (fun c hc => h c (by simp [hc]))]
    simp

theorem drop_length_append (ds rest : List Char) :
    (ds ++ rest).drop ds.length = rest := by
  induction ds with
  | nil => simp
  | cons a l ihl => simp [ihl]

theorem matchesClockRe_mk (L : List Char) :
    matchesClockRe (String.mk L) =
      ((!(L.takeWhile Char.isDigit).isEmpty) &&
        match L.drop (L.takeWhile Char.isDigit).length with
        | ':' :: a :: b :: ':' :: c :: d :: [] =>
            a.isDigit && b.isDigit && c.isDigit && d.isDigit
        | _ => false) := rfl

theorem clockValue_mk (L : List Char) :
    clockValue (String.mk L) =
      (if (L.takeWhile Char.isDigit).isEmpty then none
       else
        match L.drop (L.takeWhile Char.isDigit).length with
        | ':' :: a :: b :: ':' :: c :: d :: [] =>
            if a.isDigit && b.isDigit && c.isDigit && d.isDigit then
              some ((digitsVal (L.takeWhile Char.isDigit) : Int) * 3600 +
                (digitsVal [a, b] : Int) * 60 + (digitsVal [c, d] : Int))
            else none
        | _ => none) := rfl

theorem clock_parts (h m sec : Nat) (hm : m < 60) (hs : sec < 60) :
    matchesClockRe (String.mk (pad2 (decimalDigits h) ++
        ':' :: pad2 (decimalDigits m) ++ ':' :: pad2 (decimalDigits sec))) = true ∧
    clockValue (String.mk (pad2 (decimalDigits h) ++
        ':' :: pad2 (decimalDigits m) ++ ':' :: pad2 (decimalDigits sec))) =
      some ((h : Int) * 3600 + (m : Int) * 60 + (sec : Int)) := by
  obtain ⟨a, b, hab⟩ := List.length_eq_two.mp
    (pad2_length (decimalDigits_length_le_two (by omega : m < 100)))
  obtain ⟨c, d, hcd⟩ := List.length_eq_two.mp
    (pad2_length (decimalDigits_length_le_two (by omega : sec < 100)))
  have hHdig : ∀ x ∈ pad2 (decimalDigits h), x.isDigit = true :=
    pad2_all_digit (decimalDigits_all_digit h)
  have hMdig := pad2_all_digit (decimalDigits_all_digit m)
  have hSdig := pad2_all_digit (decimalDigits_all_digit sec)
  have ha : a.isDigit = true := hMdig a (by rw [hab]; simp)
  have hb : b.isDigit = true := hMdig b (by rw [hab]; simp)
  have hc : c.isDigit = true := hSdig c (by rw [hcd]; simp)
  have hd : d.isDigit = true := hSdig d (by rw [hcd]; simp)
  have hcolon : Char.isDigit ':' = false := by decide
  have hL : pad2 (decimalDigits h) ++
      ':' :: pad2 (decimalDigits m) ++ ':' :: pad2 (decimalDigits sec) =
      pad2 (decimalDigits h) ++ ':' :: a :: b :: ':' :: c :: d :: [] := by
    rw [hab, hcd]
    simp
  have htake : (pad2 (decimalDigits h) ++
      ':' :: a :: b :: ':' :: c :: d :: []).takeWhile Char.isDigit =
      pad2 (decimalDigits h) :=
    takeWhile_append_of_not ':' _ hHdig hcolon
  have hdrop : (pad2 (decimalDigits h) ++
      ':' :: a :: b :: ':' :: c :: d :: []).drop (pad2 (decimalDigits h)).length =
      ':' :: a :: b :: ':' :: c :: d :: [] :=
    drop_length_append _ _
  have hne : (pad2 (decimalDigits h)).isEmpty = false := by
    cases hpp : pad2 (decimalDigits h) with
    | nil => exact absurd hpp (pad2_ne_nil _)
    | cons x xs => rfl
  have hH : digitsVal (pad2 (decimalDigits h)) = h := by
    rw [digitsVal_pad2, digitsVal_decimalDigits]
  have hM : digitsVal [a, b] = m := by
    rw [← hab, digitsVal_pad2, digitsVal_decimalDigits]
  have hS : digitsVal [c, d] = sec := by
    rw [← hcd, digitsVal_pad2, digitsVal_decimalDigits]
  constructor
  · rw [hL, matchesClockRe_mk, htake, hne, hdrop]
    simp [ha, hb, hc, hd]
  · rw [hL, clockValue_mk, htake, hne, hdrop]
    simp [ha, hb, hc, hd, hH, hM, hS]

theorem string_mk_append (a b : List Char) :
    String.mk a ++ String.mk b = String.mk (a ++ b) := rfl

/-- C8: for every nonnegative integer s, format_duration_detailed s matches
the anchored clock pattern (one or more digits, colon, two digits, colon,
two digits) with no rollover cap on hours, and its numeric components
round-trip exactly to s (h * 3600 + m * 60 + sec = s, read back by
clockValue); 100 hours renders as "100:00:00"; every negative input
renders as "00:00:00". -/
theorem C8_formatClock_roundtrip (s : Int) :
    (0 ≤ s → matchesClockRe (format_duration_detailed s) = true ∧
      clockValue (format_duration_detailed s) = some s) ∧
    (s < 0 → format_duration_detailed s = "00:00:00") ∧
    format_duration_detailed 360000 = "100:00:00" := by
  refine ⟨?_, ?_, by decide⟩
  · intro hs
    have hneg : ¬ s < 0 := by omega
    have hkey := clock_parts (s.toNat / 3600) (s.toNat % 3600 / 60) (s.toNat % 60)
      (by omega) (by omega)
    simp only [format_duration_detailed, if_neg hneg]
    refine ⟨hkey.1, ?_⟩
    rw [hkey.2]
    congr 1
    omega
  · intro hneg
    simp only [format_duration_detailed, if_pos hneg]

/-- C8 witness: concrete instantiations discharging both hypotheses of
the round-trip theorem. -/
theorem C8_formatClock_roundtrip_witness :
    matchesClockRe (format_duration_detailed 9015) = true ∧
    clockValue (format_duration_detailed 9015) = some 9015 ∧
    format_duration_detailed (-5) = "00:00:00" :=
  ⟨((C8_formatClock_roundtrip 9015).1 (by decide)).1,
   ((C8_formatClock_roundtrip 9015).1 (by decide)).2,
   (C8_formatClock_roundtrip (-5)).2.1 (by decide)⟩

/-- C9: format_duration renders at most two units, most significant
first: negative input gives "0s"; if hours > 0 it gives h and m when
minutes > 0 and h alone otherwise (seconds always dropped); else if
minutes > 0 it gives m and s when seconds > 0 and m alone otherwise;
else seconds alone; and format_duration 9000 = "2h 30m",
format_duration 45 = "45s", format_duration 0 = "0s". -/
theorem C9_formatCompact_cases (s : Int) :
    (s < 0 → format_duration s = "0s") ∧
    (0 ≤ s →
      (0 < s.toNat / 3600 →
        (0 < s.toNat % 3600 / 60 →
          format_duration s =
            natStr (s.toNat / 3600) ++ "h " ++ natStr (s.toNat % 3600 / 60) ++ "m") ∧
        (s.toNat % 3600 / 60 = 0 → format_duration s = natStr (s.toNat / 3600) ++ "h")) ∧
      (s.toNat / 3600 = 0 →
        (0 < s.toNat % 3600 / 60 →
          (0 < s.toNat % 60 →
            format_duration s =
              natStr (s.toNat % 3600 / 60) ++ "m " ++ natStr (s.toNat % 60) ++ "s") ∧
          (s.toNat % 60 = 0 → format_duration s = natStr (s.toNat % 3600 / 60) ++ "m")) ∧
        (s.toNat % 3600 / 60 = 0 → format_duration s = natStr (s.toNat % 60) ++ "s"))) ∧
    format_duration 9000 = "2h 30m" ∧ format_duration 45 = "45s" ∧
    format_duration 0 = "0s" := by
  refine ⟨?_, ?_, by decide, by decide, by decide⟩
  · intro hneg
    simp only [format_duration, if_pos hneg]
  · intro hs
    have hneg : ¬ s < 0 := by omega
    constructor
    · intro hh
      constructor
      · intro hm
        simp only [format_duration, if_neg hneg, if_pos hh, if_pos hm, natStr,
          show ("h " : String) = String.mk ['h', ' '] from rfl,
          show ("m" : String) = String.mk ['m'] from rfl, string_mk_append]
        congr 1
        simp
      · intro hm
        simp only [format_duration, if_neg hneg, if_pos hh, hm, natStr,
          show ("h" : String) = String.mk ['h'] from rfl, string_mk_append]
        simp
    · intro hh
      constructor
      · intro hm
        constructor
        · intro hsec
          simp only [format_duration, if_neg hneg, hh, if_pos hm, if_pos hsec, natStr,
            show ("m " : String) = String.mk ['m', ' '] from rfl,
            show ("s" : String) = String.mk ['s'] from rfl, string_mk_append]
          simp
        · intro hsec
          simp only [format_duration, if_neg hneg, hh, if_pos hm, hsec, natStr,
            show ("m" : String) = String.mk ['m'] from rfl, string_mk_append]
          simp
      · intro hm
        simp only [format_duration, if_neg hneg, hh, hm, natStr,
          show ("s" : String) = String.mk ['s'] from rfl, string_mk_append]
        simp

/-- C9 witness: concrete instantiations discharging each hypothesis of
the case analysis. -/
theorem C9_formatCompact_cases_witness :
    format_duration (-7) = "0s" ∧ format_duration 9000 = "2h 30m" ∧
    format_duration 3600 = "1h" ∧ format_duration 90 = "1m 30s" ∧
    format_duration 120 = "2m" ∧ format_duration 45 = "45s" :=
  ⟨(C9_formatCompact_cases (-7)).1 (by decide),
   (((C9_formatCompact_cases 9000).2.1 (by decide)).1 (by decide)).1 (by decide),
   (((C9_formatCompact_cases 3600).2.1 (by decide)).1 (by decide)).2 (by decide),
   ((((C9_formatCompact_cases 90).2.1 (by decide)).2 (by decide)).1 (by decide)).1 (by decide),
   ((((C9_formatCompact_cases 120).2.1 (by decide)).2 (by decide)).1 (by decide)).2 (by decide),
   (((C9_formatCompact_cases 45).2.1 (by decide)).2 (by decide)).2 (by decide)⟩

/-- C5: the duration parser satisfies the specified table -
parse "2h 30m" = 9000, parse "90m" = 5400, parse "1.5h" = 5400,
parse "2h30m" = 9000, parse "" = none, parse "garbage" = none - and for
every input on which the hour or the minute token search succeeds
(trailing garbage included), the parse succeeds and returns exactly the
sum of the two token contributions: full-string consumption is never
required once a token is found. -/
theorem C5_parse_duration_grammar :
    parse_duration "2h 30m" = some 9000 ∧
    parse_duration "90m" = some 5400 ∧
    parse_duration "1.5h" = some 5400 ∧
    parse_duration "2h30m" = some 9000 ∧
    parse_duration "" = none ∧
    parse_duration "garbage" = none ∧
    ∀ s : String,
      ((reSearchNum 'h' (searchInput s)).isSome ∨
        (reSearchNum 'm' (searchInput s)).isSome) →
      parse_duration s = some (hourContribution s + minuteContribution s) := by
  refine ⟨by decide, by decide, by decide, by decide, by decide, by decide, ?_⟩
  intro s hs
  have hcs : searchInput s = (pyStripList s.data).map pyLowerChar := rfl
  by_cases hemp : (pyStripList s.data).isEmpty
  · exfalso
    have hnil : pyStripList s.data = [] := by
      cases hsp : pyStripList s.data with
      | nil => rfl
      | cons x xs => rw [hsp] at hemp; simp at hemp
    rcases hs with h1 | h1 <;>
      (rw [hcs, hnil] at h1; simp [reSearchNum] at h1)
  · have hcond : ((reSearchNum 'h' (searchInput s)).isSome ||
        (reSearchNum 'm' (searchInput s)).isSome) = true := by
      rcases hs with h1 | h1 <;> simp [h1]
    unfold parse_duration
    rw [if_neg hemp]
    simp only [hcond, if_true]
    unfold hourContribution minuteContribution
    rfl

/-- C5 witness: the universal conjunct applied at the concrete input
"2h extra", whose hour search succeeds despite the trailing garbage. -/
theorem C5_parse_duration_grammar_witness :
    parse_duration "2h extra" =
      some (hourContribution "2h extra" + minuteContribution "2h extra") :=
  C5_parse_duration_grammar.2.2.2.2.2.2 "2h extra" (Or.inl (by decide))

theorem stableInsertBy_perm (le : TaskBucket → TaskBucket → Bool)
    (a : TaskBucket) (l : List TaskBucket) :
    (stableInsertBy le a l).Perm (a :: l) := by
  induction l with
  | nil => simp [stableInsertBy]
  | cons b l ih =>
    by_cases h : le a b
    · simp [stableInsertBy, h]
    · simp only [stableInsertBy, if_neg h]
      exact (List.Perm.cons b ih).trans (List.Perm.swap a b l)

theorem stableSortBy_perm (le : TaskBucket → TaskBucket → Bool)
    (l : List TaskBucket) : (stableSortBy le l).Perm l := by
  induction l with
  | nil => simp [stableSortBy]
  | cons a l ih =>
    exact (stableInsertBy_perm le a _).trans (List.Perm.cons a ih)

theorem pairwise_stableInsertBy (a : TaskBucket) (l : List TaskBucket)
    (hl : l.Pairwise (fun p q => q.duration ≤ p.duration)) :
    (stableInsertBy byDurationDesc a l).Pairwise
      (fun p q => q.duration ≤ p.duration) := by
  induction l with
  | nil => simp [stableInsertBy]
  | cons b l ih =>
    rcases List.pairwise_cons.mp hl with ⟨hb, hl'⟩
    by_cases h : byDurationDesc a b
    · have hab : b.duration ≤ a.duration := by simpa [byDurationDesc] using h
      simp only [stableInsertBy, if_pos h]
      refine List.pairwise_cons.mpr ⟨?_, hl⟩
      intro c hc
      rcases List.mem_cons.mp hc with rfl | hc'
      · exact hab
      · exact le_trans (hb c hc') hab
    · have hab : a.duration < b.duration := by simpa [byDurationDesc] using h
      simp only [stableInsertBy, if_neg h]
      refine List.pairwise_cons.mpr ⟨?_, ih hl'⟩
      intro c hc
      have hc2 : c ∈ a :: l := (stableInsertBy_perm byDurationDesc a l).mem_iff.mp hc
      rcases List.mem_cons.mp hc2 with rfl | hc'
      · omega
      · exact hb c hc'

theorem pairwise_stableSortBy (l : List TaskBucket) :
    (stableSortBy byDurationDesc l).Pairwise
      (fun p q => q.duration ≤ p.duration) := by
  induction l with
  | nil => simp [stableSortBy]
  | cons a l ih => exact pairwise_stableInsertBy a _ ih

theorem filter_stableInsertBy (a : TaskBucket) (l : List TaskBucket) (d : Int) :
    (stableInsertBy byDurationDesc a l).filter (fun t => t.duration == d) =
      (if a.duration = d then
        a :: l.filter (fun t => t.duration == d)
      else l.filter (fun t => t.duration == d)) := by
  induction l with
  | nil =>
    by_cases had : a.duration = d <;>
      simp [stableInsertBy, List.filter_cons, beq_iff_eq, had]
  | cons b l ih =>
    by_cases h : byDurationDesc a b
    · by_cases had : a.duration = d <;>
        simp [stableInsertBy, if_pos h, List.filter_cons, had]
    · have hab : a.duration < b.duration := by simpa [byDurationDesc] using h
      simp only [stableInsertBy, if_neg h, List.filter_cons]
      by_cases had : a.duration = d
      · have hbd : (b.duration == d) = false := by
          simp only [beq_eq_false_iff_ne, ne_eq]
          omega
        simp only [hbd, ih, if_pos had, Bool.false_eq_true, if_false]
      · by_cases hbd : b.duration = d <;>
          simp [hbd, ih, had]

theorem filter_stableSortBy (l : List TaskBucket) (d : Int) :
    (stableSortBy byDurationDesc l).filter (fun t => t.duration == d) =
      l.filter (fun t => t.duration == d) := by
  induction l with
  | nil => simp [stableSortBy]
  | cons a l ih =>
    by_cases had : a.duration = d <;>
      simp [stableSortBy, filter_stableInsertBy, List.filter_cons, had, ih]

/-- C7: the rendered per-task breakdown is the bucket list sorted by
descending accumulated duration at render time - a permutation of the
accumulated buckets, pairwise descending, with ties keeping encounter
order (the sublist at each duration value is unchanged, i.e. the sort is
stable); and summarizing two finished sessions (30m task A, 15m task A)
plus one manual entry (20m task B) yields total 3900s (65m), two
sessions, one manual entry, and breakdown A 45m then B 20m. -/
theorem C7_render_sorted_stable :
    (∀ s : DailySummary,
      (renderedTasks s).Perm s.tasks ∧
      (renderedTasks s).Pairwise (fun p q => q.duration ≤ p.duration) ∧
      ∀ d : Int, (renderedTasks s).filter (fun t => t.duration == d) =
        s.tasks.filter (fun t => t.duration == d)) ∧
    (summarize 0
        [{ id := some 1, start_time := some 0, end_time := some 1800,
           duration := some 1800, task_name := some "A" },
         { id := some 2, start_time := some 2000, end_time := some 2900,
           duration := some 900, task_name := some "A" }]
        [{ id := some 1, date := some 0, duration := 1200, task_name := "B" }]) =
      { date := 0, total_duration := 3900, session_count := 2,
        manual_entry_count := 1,
        tasks := [⟨"A", 2700, "45m"⟩, ⟨"B", 1200, "20m"⟩] } ∧
    renderedTasks (summarize 0
        [{ id := some 1, start_time := some 0, end_time := some 1800,
           duration := some 1800, task_name := some "A" },
         { id := some 2, start_time := some 2000, end_time := some 2900,
           duration := some 900, task_name := some "A" }]
        [{ id := some 1, date := some 0, duration := 1200, task_name := "B" }]) =
      [⟨"A", 2700, "45m"⟩, ⟨"B", 1200, "20m"⟩] := by
  refine ⟨?_, by decide, by decide⟩
  intro s
  exact ⟨stableSortBy_perm byDurationDesc s.tasks,
    pairwise_stableSortBy s.tasks,
    fun d => filter_stableSortBy s.tasks d⟩

/-- C3 counterexample: a finalized session whose duration is present but
equal to 0 seconds has its duration set, yet add_session ignores it (the
summary is unchanged and the session count stays 0, where the claim
demands 1), and the daily-summary loop skips it too. -/
theorem C3_zero_duration_counterexample :
    ({ duration := some 0, task_name := some "A" } : WorkSession).duration =
      some 0 ∧
    ({ date := 0 } : DailySummary).add_session
      { duration := some 0, task_name := some "A" } = { date := 0 } ∧
    (({ date := 0 } : DailySummary).add_session
      { duration := some 0, task_name := some "A" }).session_count = 0 ∧
    summarize 0 [{ duration := some 0, task_name := some "A" }] [] =
      ({ date := 0 } : DailySummary) := by decide

/-- C3 (amended): the summary skips a session exactly when its duration
field is falsy - unset or zero; every session with a nonzero duration
present is added to the total and increments the session count, leaves
the manual count alone, and is accumulated into the per-task breakdown
exactly when its task label is truthy (present and nonempty), keyed by
exact case-sensitive match with no trimming. -/
theorem C3_skip_iff_falsy_duration (s : DailySummary) (w : WorkSession) :
    (s.add_session w = s ↔ (w.duration = none ∨ w.duration = some 0)) ∧
    (∀ d : Int, w.duration = some d → d ≠ 0 →
      (s.add_session w).total_duration = s.total_duration + d ∧
      (s.add_session w).session_count = s.session_count + 1 ∧
      (s.add_session w).manual_entry_count = s.manual_entry_count ∧
      (s.add_session w).date = s.date ∧
      (s.add_session w).tasks =
        (if truthyStr w.task_name then
          addTaskToList (w.task_name.getD "") d s.tasks
        else s.tasks)) := by
  constructor
  · constructor
    · intro heq
      by_cases ht : truthyInt w.duration = true
      · exfalso
        have hcount : (s.add_session w).session_count = s.session_count + 1 := by
          simp only [DailySummary.add_session, ht, if_true]
          by_cases hts : truthyStr w.task_name = true <;> simp [hts]
        rw [heq] at hcount
        omega
      · cases hd : w.duration with
        | none => exact Or.inl rfl
        | some d =>
          refine Or.inr ?_
          have hd0 : d = 0 := by simpa [truthyInt, hd] using ht
          rw [hd0]
    · intro h
      have ht : truthyInt w.duration = false := by
        rcases h with h | h <;> simp [truthyInt, h]
      simp [DailySummary.add_session, ht]
  · intro d hd hdz
    have ht2 : truthyInt (some d) = true := by simp [truthyInt, hdz]
    by_cases hts : truthyStr w.task_name = true
    · simp [DailySummary.add_session, ht2, hts, hd]
    · simp [DailySummary.add_session, ht2, hts, hd]

/-- C3 witness: the amended positive branch applied to a concrete
half-hour session. -/
theorem C3_skip_iff_falsy_duration_witness :
    (({ date := 0 } : DailySummary).add_session
      { duration := some 1800, task_name := some "A" }).total_duration =
        0 + 1800 ∧
    (({ date := 0 } : DailySummary).add_session
      { duration := some 1800, task_name := some "A" }).session_count = 0 + 1 := by
  have h := (C3_skip_iff_falsy_duration { date := 0 }
    { duration := some 1800, task_name := some "A" }).2 1800 rfl (by decide)
  exact ⟨h.1, h.2.1⟩

/-- C1: while a session is active, start_session returns none and leaves
the whole engine state (hence every stored session and its start time)
unchanged; while none is active it creates a fresh unended session with
the given label and start = now, adopts its id as current, returns that
id, and is_session_active becomes true. -/
theorem C1_start_session_spec (t : TimeTrackerCore) (now : Int)
    (task : Option String) :
    (t.current_session_id.isSome = true →
      t.start_session now task = (none, t)) ∧
    (t.current_session_id = none →
      (t.start_session now task).1 = some t.db.nextSessionId ∧
      (t.start_session now task).2.current_session_id =
        some t.db.nextSessionId ∧
      (t.start_session now task).2.db.sessions = t.db.sessions ++
        [{ id := some t.db.nextSessionId, start_time := some now,
           end_time := none, duration := none, task_name := task,
           notes := none }] ∧
      (t.start_session now task).2.db.entries = t.db.entries ∧
      (t.start_session now task).2.is_session_active = true) := by
  constructor
  · intro h
    have ha : t.is_session_active = true := by
      simp [TimeTrackerCore.is_session_active, h]
    simp [TimeTrackerCore.start_session, ha]
  · intro h
    simp [TimeTrackerCore.start_session, TimeTrackerCore.is_session_active, h,
      Database.create_work_session]

/-- C1 witness: a concrete active state is refused unchanged, and a
concrete idle state yields the fresh id. -/
theorem C1_start_session_spec_witness :
    TimeTrackerCore.start_session { db := { sessions := [{ id := some 1, start_time := some 50 }], nextSessionId := 2 }, current_session_id := some 1 } 100 (some "X") =
      (none, { db := { sessions := [{ id := some 1, start_time := some 50 }], nextSessionId := 2 }, current_session_id := some 1 }) ∧
    (TimeTrackerCore.start_session { db := {}, current_session_id := none } 100 (some "X")).1 = some 1 := by
  constructor
  · exact (C1_start_session_spec { db := { sessions := [{ id := some 1, start_time := some 50 }], nextSessionId := 2 }, current_session_id := some 1 } 100 (some "X")).1 (by decide)
  · exact ((C1_start_session_spec { db := {}, current_session_id := none }
      100 (some "X")).2 rfl).1

theorem find_session_update (l : List WorkSession) (sid : Int)
    (f : WorkSession → WorkSession) (hf : ∀ w, (f w).id = w.id)
    (row : WorkSession)
    (h : l.find? (fun w => w.id == some sid) = some row) :
    (l.map (fun w => if w.id == some sid then f w else w)).find?
      (fun w => w.id == some sid) = some (f row) := by
  induction l with
  | nil => simp at h
  | cons a l ih =>
    by_cases haP : a.id = some sid
    · have hab : (a.id == some sid) = true := by simp [haP]
      simp only [List.find?_cons, hab] at h
      injection h with h
      subst h
      simp [List.map_cons, List.find?_cons, haP, hf a]
    · have hab : (a.id == some sid) = false := by simp [haP]
      simp only [List.find?_cons, hab] at h
      have hres := ih h
      simp only [List.map_cons, List.find?_cons]
      simpa [haP, hab] using hres

/-- C2: stop_session returns false and changes nothing while inactive;
while active it writes end = now and duration = end minus start (whole
seconds) onto the current session, clears the current id so that
is_session_active is false, and returns true; and it returns false with
the whole prior state intact exactly in the storage-failure case where
the current session record has vanished. -/
theorem C2_stop_session_spec (t : TimeTrackerCore) (now : Int) :
    (t.current_session_id = none → t.stop_session now = (false, t)) ∧
    (∀ sid : Int, t.current_session_id = some sid →
      (t.db.get_session sid = none → t.stop_session now = (false, t)) ∧
      (∀ row st, t.db.get_session sid = some row → row.start_time = some st →
        (t.stop_session now).1 = true ∧
        (t.stop_session now).2.current_session_id = none ∧
        (t.stop_session now).2.is_session_active = false ∧
        (t.stop_session now).2.db.get_session sid =
          some { row with
            end_time := some now,
            duration := some (now - st) })) := by
  constructor
  · intro hc
    have ha : t.is_session_active = false := by
      simp [TimeTrackerCore.is_session_active, hc]
    simp [TimeTrackerCore.stop_session, ha]
  · intro sid hc
    have ha : t.is_session_active = true := by
      simp [TimeTrackerCore.is_session_active, hc]
    constructor
    · intro hn
      simp [TimeTrackerCore.stop_session, ha, hc, Database.end_work_session, hn]
      rw [← hc]
    · intro row st hrow hst
      have hupd := find_session_update t.db.sessions sid
        (fun w => { w with
          end_time := some now,
          duration := row.start_time.map (fun s2 => now - s2) })
        (fun w => rfl) row hrow
      simp only [TimeTrackerCore.stop_session, ha, if_true, hc,
        Option.getD_some, Database.end_work_session, hrow]
      refine ⟨by trivial, by trivial, by trivial, ?_⟩
      simp only [Database.get_session] at hupd ⊢
      rw [hupd, hst]
      simp

/-- C2 witness: a concrete idle state refuses; a concrete active state
with its record present finalizes it; a concrete active state whose
record vanished reports failure with state intact. -/
theorem C2_stop_session_spec_witness :
    TimeTrackerCore.stop_session { db := {}, current_session_id := none } 100 =
      (false, { db := {}, current_session_id := none }) ∧
    (TimeTrackerCore.stop_session { db := { sessions := [{ id := some 1, start_time := some 40 }], nextSessionId := 2 }, current_session_id := some 1 } 100).1 = true ∧
    (TimeTrackerCore.stop_session { db := { sessions := [{ id := some 1, start_time := some 40 }], nextSessionId := 2 }, current_session_id := some 1 } 100).2.db.get_session 1 =
      some { id := some 1, start_time := some 40, end_time := some 100, duration := some 60 } ∧
    TimeTrackerCore.stop_session { db := { nextSessionId := 2 }, current_session_id := some 1 } 100 =
      (false, { db := { nextSessionId := 2 }, current_session_id := some 1 }) := by
  refine ⟨(C2_stop_session_spec { db := {}, current_session_id := none } 100).1
    rfl, ?_, ?_, ?_⟩
  · exact (((C2_stop_session_spec { db := { sessions := [{ id := some 1, start_time := some 40 }], nextSessionId := 2 }, current_session_id := some 1 } 100).2 1 rfl).2
      { id := some 1, start_time := some 40 } 40 (by decide) rfl).1
  · have h := (((C2_stop_session_spec { db := { sessions := [{ id := some 1, start_time := some 40 }], nextSessionId := 2 }, current_session_id := some 1 } 100).2 1 rfl).2
      { id := some 1, start_time := some 40 } 40 (by decide) rfl).2.2.2
    exact h.trans (by decide)
  · exact ((C2_stop_session_spec { db := { nextSessionId := 2 }, current_session_id := some 1 } 100).2 1
      rfl).1 (by decide)

/-- C4: evaluation of get_daily_summary at the failing input. The store
holds one finalized session on day 0 (60s, task A) and one on day 100
(120s, task B); today is day 100 and the summary of day 0 is requested.
The result is labelled with the requested date 0, yet it aggregates
today's session (120s, task B) instead of the day-0 session (60s, task
A): the code fetches rows with the today-only queries and ignores the
date argument when selecting rows. -/
theorem C4_get_daily_summary_reads_today :
    TimeTrackerCore.get_daily_summary
      { db := { sessions := [{ id := some 1, start_time := some 3600, end_time := some 3660, duration := some 60, task_name := some "A" }, { id := some 2, start_time := some 8640000, end_time := some 8640120, duration := some 120, task_name := some "B" }], nextSessionId := 3 }, current_session_id := none }
      100 (some 0) =
      { date := 0, total_duration := 120, session_count := 1,
        manual_entry_count := 0, tasks := [⟨"B", 120, "2m"⟩] } := by decide

/-- C6: add_manual_entry rejects with the invalid-format message when the
duration text fails to parse or parses to a nonpositive value; then
rejects with the empty-name message when the task name strips to empty;
otherwise it persists exactly one entry (task name stripped, dated today)
and returns success with the message quoting the duration compactly and
the unstripped task name, plus the fresh id. On every rejection the whole
state is unchanged. -/
theorem C6_add_manual_entry_validation (t : TimeTrackerCore) (today : Int)
    (task : String) (dstr : String) (notes : Option String) :
    (parse_duration dstr = none →
      t.add_manual_entry today task dstr notes =
        ((false, "Invalid duration format. Use formats like '2h 30m', '90m', or '1.5h'.", none), t)) ∧
    (∀ d : Int, parse_duration dstr = some d → d ≤ 0 →
      t.add_manual_entry today task dstr notes =
        ((false, "Invalid duration format. Use formats like '2h 30m', '90m', or '1.5h'.", none), t)) ∧
    (∀ d : Int, parse_duration dstr = some d → 0 < d → pyStrip task = "" →
      t.add_manual_entry today task dstr notes =
        ((false, "Task name cannot be empty.", none), t)) ∧
    (∀ d : Int, parse_duration dstr = some d → 0 < d → ¬ pyStrip task = "" →
      (t.add_manual_entry today task dstr notes).1 =
        (true, "Added " ++ format_duration d ++ " for '" ++ task ++ "'",
          some t.db.nextEntryId) ∧
      (t.add_manual_entry today task dstr notes).2.db.entries =
        t.db.entries ++ [{
          id := some t.db.nextEntryId, date := some today,
          duration := d, task_name := pyStrip task, notes := notes }] ∧
      (t.add_manual_entry today task dstr notes).2.db.sessions =
        t.db.sessions ∧
      (t.add_manual_entry today task dstr notes).2.current_session_id =
        t.current_session_id) := by
  refine ⟨?_, ?_, ?_, ?_⟩
  · intro h
    simp [TimeTrackerCore.add_manual_entry, h]
  · intro d hd hle
    simp [TimeTrackerCore.add_manual_entry, hd, hle]
  · intro d hd hpos hempty
    have hnle : ¬ d ≤ 0 := by omega
    simp [TimeTrackerCore.add_manual_entry, hd, hnle, hempty]
  · intro d hd hpos hne
    have hnle : ¬ d ≤ 0 := by omega
    simp [TimeTrackerCore.add_manual_entry, hd, hnle, hne,
      Database.add_manual_entry]

/-- C6 witness: the four branches at concrete inputs - unparseable text,
zero duration, blank task name, and a successful half-past-two-hours
entry into an empty store. -/
theorem C6_add_manual_entry_validation_witness :
    TimeTrackerCore.add_manual_entry { db := {}, current_session_id := none }
      0 "Task" "garbage" none =
      ((false, "Invalid duration format. Use formats like '2h 30m', '90m', or '1.5h'.", none), { db := {}, current_session_id := none }) ∧
    TimeTrackerCore.add_manual_entry { db := {}, current_session_id := none }
      0 "Task" "0m" none =
      ((false, "Invalid duration format. Use formats like '2h 30m', '90m', or '1.5h'.", none), { db := {}, current_session_id := none }) ∧
    TimeTrackerCore.add_manual_entry { db := {}, current_session_id := none }
      0 "   " "2h" none =
      ((false, "Task name cannot be empty.", none), { db := {}, current_session_id := none }) ∧
    (TimeTrackerCore.add_manual_entry { db := {}, current_session_id := none }
      0 "Testing" "2h 30m" none).1 =
      (true, "Added 2h 30m for 'Testing'", some 1) := by
  refine ⟨?_, ?_, ?_, ?_⟩
  · exact (C6_add_manual_entry_validation
      { db := {}, current_session_id := none } 0 "Task" "garbage" none).1
      (by decide)
  · exact (C6_add_manual_entry_validation
      { db := {}, current_session_id := none } 0 "Task" "0m" none).2.1 0
      (by decide) (by decide)
  · exact (C6_add_manual_entry_validation
      { db := {}, current_session_id := none } 0 "   " "2h" none).2.2.1 7200
      (by decide) (by decide) (by decide)
  · have h := (C6_add_manual_entry_validation
      { db := {}, current_session_id := none } 0 "Testing" "2h 30m" none).2.2.2
      9000 (by decide) (by decide) (by decide)
    exact h.1.trans (by decide)

theorem bucketsSum_addTaskToList (n : String) (d : Int) (l : List TaskBucket) :
    bucketsSum (addTaskToList n d l) = bucketsSum l + d := by
  induction l with
  | nil => simp [addTaskToList, bucketsSum]
  | cons t ts ih =>
    by_cases h : t.name = n
    · simp [addTaskToList, h, bucketsSum]
      ring
    · simp only [addTaskToList, if_neg h, bucketsSum, List.map_cons, List.sum_cons]
      simp only [bucketsSum] at ih
      rw [ih]
      ring

theorem bucketNames_addTaskToList (n : String) (d : Int) (l : List TaskBucket) :
    bucketNames (addTaskToList n d l) =
      if n ∈ bucketNames l then bucketNames l else bucketNames l ++ [n] := by
  induction l with
  | nil => simp [addTaskToList, bucketNames]
  | cons t ts ih =>
    simp only [bucketNames] at ih ⊢
    by_cases h : t.name = n
    · simp [addTaskToList, h]
    · have hne : n ≠ t.name := fun hx => h hx.symm
      simp only [addTaskToList, if_neg h, List.map_cons]
      by_cases hmem : n ∈ ts.map TaskBucket.name
      · rw [ih, if_pos hmem, if_pos (List.mem_cons_of_mem _ hmem)]
      · have hnotin : n ∉ t.name :: ts.map TaskBucket.name := by
          intro hx
          rcases List.mem_cons.mp hx with hx | hx
          · exact hne hx
          · exact hmem hx
        rw [ih, if_neg hmem, if_neg hnotin]
        simp

theorem nodup_addTaskToList (n : String) (d : Int) (l : List TaskBucket)
    (hl : (bucketNames l).Nodup) : (bucketNames (addTaskToList n d l)).Nodup := by
  rw [bucketNames_addTaskToList]
  by_cases hmem : n ∈ bucketNames l
  · simp [hmem, hl]
  · simp [hmem, List.nodup_append, hl]

theorem applyItem_total (s : DailySummary) (i : SummaryItem) :
    (applyItem s i).total_duration =
      s.total_duration + (if itemCounted i then itemDuration i else 0) := by
  cases i with
  | sess w =>
    by_cases ht : truthyInt w.duration = true
    · simp only [applyItem, itemCounted, itemDuration, DailySummary.add_session,
        ht, if_true]
      by_cases hts : truthyStr w.task_name = true <;> simp [hts]
    · have ht' : truthyInt w.duration = false := by simpa using ht
      simp [applyItem, itemCounted, itemDuration, DailySummary.add_session, ht']
  | manual e =>
    by_cases hts : (e.task_name != "") = true <;>
      simp [applyItem, itemCounted, itemDuration,
        DailySummary.add_manual_entry, hts]

theorem applyItem_buckets (s : DailySummary) (i : SummaryItem) :
    bucketsSum (applyItem s i).tasks =
      bucketsSum s.tasks +
        (if itemCounted i && itemLabelled i then itemDuration i else 0) := by
  cases i with
  | sess w =>
    by_cases ht : truthyInt w.duration = true
    · by_cases hts : truthyStr w.task_name = true
      · simp [applyItem, DailySummary.add_session, ht, hts, itemCounted,
          itemLabelled, itemDuration, bucketsSum_addTaskToList]
      · have hts' : truthyStr w.task_name = false := by simpa using hts
        simp [applyItem, DailySummary.add_session, ht, hts', itemCounted,
          itemLabelled, itemDuration]
    · have ht' : truthyInt w.duration = false := by simpa using ht
      simp [applyItem, DailySummary.add_session, ht', itemCounted,
        itemLabelled, itemDuration]
  | manual e =>
    by_cases hts : (e.task_name != "") = true
    · simp [applyItem, DailySummary.add_manual_entry, hts, itemCounted,
        itemLabelled, itemDuration, bucketsSum_addTaskToList]
    · have hts' : (e.task_name != "") = false := by simpa using hts
      simp [applyItem, DailySummary.add_manual_entry, hts', itemCounted,
        itemLabelled, itemDuration]

theorem applyItem_nodup (s : DailySummary) (i : SummaryItem)
    (h : (bucketNames s.tasks).Nodup) :
    (bucketNames (applyItem s i).tasks).Nodup := by
  cases i with
  | sess w =>
    by_cases ht : truthyInt w.duration = true
    · by_cases hts : truthyStr w.task_name = true
      · simp only [applyItem, DailySummary.add_session, ht, if_true, hts]
        exact nodup_addTaskToList _ _ _ h
      · have hts' : truthyStr w.task_name = false := by simpa using hts
        simpa [applyItem, DailySummary.add_session, ht, hts'] using h
    · have ht' : truthyInt w.duration = false := by simpa using ht
      simpa [applyItem, DailySummary.add_session, ht'] using h
  | manual e =>
    by_cases hts : (e.task_name != "") = true
    · simp only [applyItem, DailySummary.add_manual_entry, hts, if_true]
      exact nodup_addTaskToList _ _ _ h
    · have hts' : (e.task_name != "") = false := by simpa using hts
      simpa [applyItem, DailySummary.add_manual_entry, hts'] using h

theorem applyItems_delta (items : List SummaryItem) :
    ∀ s : DailySummary,
      (applyItems s items).total_duration -
          bucketsSum (applyItems s items).tasks =
        s.total_duration - bucketsSum s.tasks +
          (items.map itemUncredited).sum := by
  induction items with
  | nil => intro s; simp [applyItems]
  | cons i items ih =>
    intro s
    have hstep := ih (applyItem s i)
    simp only [applyItems, List.foldl_cons] at hstep ⊢
    rw [hstep, applyItem_total, applyItem_buckets]
    simp only [List.map_cons, List.sum_cons, itemUncredited]
    by_cases hc : itemCounted i = true <;>
      by_cases hlab : itemLabelled i = true <;>
        (simp [hc, hlab]; try ring)

theorem applyItems_nodup (items : List SummaryItem) :
    ∀ s : DailySummary, (bucketNames s.tasks).Nodup →
      (bucketNames (applyItems s items).tasks).Nodup := by
  induction items with
  | nil => intro s h; simpa [applyItems] using h
  | cons i items ih =>
    intro s h
    simp only [applyItems, List.foldl_cons] at ih ⊢
    exact ih (applyItem s i) (applyItem_nodup s i h)

/-- C10 counterexample: one add_manual_entry call with duration -1 and an
empty (falsy) task label, from a fresh summary, leaves the breakdown
empty (sum 0) while the total becomes -1, so the claimed inequality
bucket-sum less-or-equal total fails. -/
theorem C10_negative_unlabelled_counterexample :
    ¬ bucketsSum (applyItems { date := 0 }
        [SummaryItem.manual { duration := -1, task_name := "" }]).tasks ≤
      (applyItems { date := 0 }
        [SummaryItem.manual { duration := -1, task_name := "" }]).total_duration := by
  decide

/-- C10 (amended): after any sequence of add_session and add_manual_entry
calls from a fresh summary, the breakdown task names are pairwise
distinct; provided every item carries a nonnegative duration, the sum of
the bucket durations is at most the total duration; and it equals the
total whenever every counted item carries a truthy task label. -/
theorem C10_summary_invariant (items : List SummaryItem) :
    (bucketNames (applyItems { date := 0 } items).tasks).Nodup ∧
    ((∀ i ∈ items, 0 ≤ itemDuration i) →
      bucketsSum (applyItems { date := 0 } items).tasks ≤
        (applyItems { date := 0 } items).total_duration) ∧
    ((∀ i ∈ items, itemCounted i = true → itemLabelled i = true) →
      bucketsSum (applyItems { date := 0 } items).tasks =
        (applyItems { date := 0 } items).total_duration) := by
  have hdelta := applyItems_delta items { date := 0 }
  have hfresh : (({ date := 0 } : DailySummary).total_duration -
      bucketsSum ({ date := 0 } : DailySummary).tasks) = 0 := by decide
  rw [hfresh] at hdelta
  refine ⟨applyItems_nodup items { date := 0 } (by simp [bucketNames]), ?_, ?_⟩
  · intro hpos
    have hsum : 0 ≤ (items.map itemUncredited).sum := by
      apply List.sum_nonneg
      intro x hx
      rcases List.mem_map.mp hx with ⟨i, hi, rfl⟩
      unfold itemUncredited
      split
      · exact hpos i hi
      · exact le_refl 0
    omega
  · intro hlab
    have hsum : (items.map itemUncredited).sum = 0 := by
      apply List.sum_eq_zero
      intro x hx
      rcases List.mem_map.mp hx with ⟨i, hi, rfl⟩
      have hcond : (itemCounted i && !(itemLabelled i)) = false := by
        by_cases hc : itemCounted i = true
        · simp [hc, hlab i hi hc]
        · have : itemCounted i = false := by simpa using hc
          simp [this]
      simp [itemUncredited, hcond]
    omega

/-- C10 witness: the hypotheses discharged at a concrete item sequence -
one labelled session of 1800s and one labelled manual entry of 1200s. -/
theorem C10_summary_invariant_witness :
    bucketsSum (applyItems { date := 0 }
      [SummaryItem.sess { duration := some 1800, task_name := some "A" },
       SummaryItem.manual { duration := 1200, task_name := "B" }]).tasks ≤
    (applyItems { date := 0 }
      [SummaryItem.sess { duration := some 1800, task_name := some "A" },
       SummaryItem.manual { duration := 1200, task_name := "B" }]).total_duration ∧
    bucketsSum (applyItems { date := 0 }
      [SummaryItem.sess { duration := some 1800, task_name := some "A" },
       SummaryItem.manual { duration := 1200, task_name := "B" }]).tasks =
    (applyItems { date := 0 }
      [SummaryItem.sess { duration := some 1800, task_name := some "A" },
       SummaryItem.manual { duration := 1200, task_name := "B" }]).total_duration :=
  ⟨(C10_summary_invariant
      [SummaryItem.sess { duration := some 1800, task_name := some "A" },
       SummaryItem.manual { duration := 1200, task_name := "B" }]).2.1
      (by decide),
   (C10_summary_invariant
      [SummaryItem.sess { duration := some 1800, task_name := some "A" },
       SummaryItem.manual { duration := 1200, task_name := "B" }]).2.2
      (by decide)⟩

end TimeTrackerSpec
